import Mathlib

/-!
Verification of the tnnlr tunneling client against its design spec.

The definitions below are a shallow embedding of the TypeScript source:
bytes are modelled as `List Nat` (byte values, LF = 10), strings of the
host/auth layer as Lean `String`, and the event-driven promise logic of
`createTunnel` as an explicit fold over an event list that mirrors Node's
listener-registration order and first-settlement-wins promise semantics.
-/

/-- Whitespace bytes removed by JavaScript `String.prototype.trim` (ASCII
subset; the control lines in the protocol are ASCII). -/
def isWsByte (b : Nat) : Bool :=
  b = 9 || b = 10 || b = 11 || b = 12 || b = 13 || b = 32

/-- Byte-level model of `.toString().trim()` applied to a control line. -/
def trimBytes (l : List Nat) : List Nat :=
  ((l.dropWhile isWsByte).reverse.dropWhile isWsByte).reverse

/-- Model of `buf.indexOf(0x0a)` combined with `buf.slice`: split the buffer
at the first LF, returning the bytes before it and the bytes after it. -/
def splitAtLF : List Nat → Option (List Nat × List Nat)
  | [] => none
  | b :: bs =>
    if b = 10 then some ([], bs)
    else
      match splitAtLF bs with
      | none => none
      | some (p, r) => some (b :: p, r)

/-- Bytes of the control word `READY`. -/
def readyBytes : List Nat := [82, 69, 65, 68, 89]

/-- Bytes of the control word `PING`. -/
def pingBytes : List Nat := [80, 73, 78, 71]

/-- Result of one invocation of `waitForReady`'s `onData` handler:
either still waiting with the current buffer, resolved with the residue
after the `READY` line, or rejected with the protocol error
`Unexpected data before READY`.  The `Nat` counts `PONG\n` writes. -/
inductive WaitStep where
  | more (buf : List Nat) (pongs : Nat)
  | ready (residue : List Nat) (pongs : Nat)
  | protoFail (pongs : Nat)
deriving DecidableEq, Repr

/-- The `while (nlIndex !== -1)` loop of `waitForReady.onData`
(src/unnamed/part_000 lines 167-207), written with an explicit fuel so the
function stays structurally recursive.  Each iteration splits the buffer at
the first LF; `READY` resolves with the remainder, `PING` answers with one
`PONG\n` and drops the line, any other complete line leaves the buffer
untouched (only the 64 KiB cap check runs).  The loop consumes at least
five bytes per iteration, so `buf.length` is always enough fuel; the
fuel-zero branch is unreachable when called through `waitLoop`. -/
def waitLoopAux : Nat → List Nat → Nat → WaitStep
  | 0, buf, pongs => .more buf pongs
  | fuel + 1, buf, pongs =>
    match splitAtLF buf with
    | none => .more buf pongs
    | some (pre, rest) =>
      if trimBytes pre = readyBytes then .ready rest pongs
      else if trimBytes pre = pingBytes then waitLoopAux fuel rest (pongs + 1)
      else if buf.length > 64 * 1024 then .protoFail pongs
      else .more buf pongs

/-- `waitForReady.onData` applied to the concatenated buffer. -/
def waitLoop (buf : List Nat) (pongs : Nat) : WaitStep :=
  waitLoopAux buf.length buf pongs

/-- Outcome of `waitForReady` after a list of `data` events: still pending,
resolved with the residue and the chunks that arrived after resolution, or
rejected with the `Unexpected data before READY` protocol error. -/
inductive WaitOutcome where
  | waiting (buf : List Nat) (pongs : Nat)
  | ready (residue : List Nat) (pongs : Nat) (rest : List (List Nat))
  | protoFail (pongs : Nat)
deriving DecidableEq, Repr

/-- Feed the remote chunks one at a time into `waitForReady`'s `onData`
handler (src/unnamed/part_000 lines 167-207).  Chunks arriving after the
`READY` resolution are no longer seen by the waiter and are recorded in
`rest`. -/
def waitRun (buf : List Nat) (pongs : Nat) :
    List (List Nat) → WaitOutcome
  | [] => .waiting buf pongs
  | c :: cs =>
    match waitLoop (buf ++ c) pongs with
    | .more b p => waitRun b p cs
    | .ready res p => .ready res p cs
    | .protoFail p => .protoFail p

/-- True iff the waiter resolved successfully. -/
def isReadyOutcome : WaitOutcome → Bool
  | .ready _ _ _ => true
  | _ => false

/-- Bytes written to the local socket by `createTunnel` for a session with
no Host rewrite, as a function of the remote chunks (src/unnamed/part_000
lines 245-254 and 268-289).  `waitForReady`'s resolution value is stored in
`postReadyBuffer`, but the source never writes or pipes that variable
anywhere afterwards: only the chunks emitted after piping starts flow into
the local socket (`stream.pipe(localSocket)`), so the model forwards
exactly the post-resolution chunks and drops the residue, mirroring the
code. `none` means the pipeline was never built (no `READY`). -/
def createTunnelLocalBytes (chunks : List (List Nat)) :
    Option (List Nat) :=
  match waitRun [] 0 chunks with
  | .ready _residue _p rest => some rest.flatten
  | _ => none

/-- The sixteen lowercase hexadecimal digit characters. -/
def hexDigits : List Char := "0123456789abcdef".toList

/-- Hexadecimal digit character used by the `\uXXXX` escapes of
`JSON.stringify`. -/
def hexDigit (n : Nat) : Char := (hexDigits[n]?).getD '0'

/-- Escape of a single character inside a JSON string literal, as produced
by `JSON.stringify` (control characters below 0x20 become `\uXXXX`). -/
def jsonEscapeChar (c : Char) : List Char :=
  if c = '"' then [ '\\', '"' ]
  else if c = '\\' then [ '\\', '\\' ]
  else if c = '\n' then [ '\\', 'n' ]
  else if c = '\r' then [ '\\', 'r' ]
  else if c = '\t' then [ '\\', 't' ]
  else if c.toNat = 8 then [ '\\', 'b' ]
  else if c.toNat = 12 then [ '\\', 'f' ]
  else if c.toNat < 32 then
    [ '\\', 'u', '0', '0', hexDigit (c.toNat / 16), hexDigit (c.toNat % 16) ]
  else [c]

/-- `JSON.stringify` applied to a string value. -/
def jsonQuote (s : String) : String :=
  String.mk ('"' :: (s.toList.map jsonEscapeChar).flatten ++ [ '"' ])

/-- `JSON.stringify({ type: 'auth', key: k })`: the auth frame without its
trailing newline. -/
def authBody (k : String) : String :=
  "\x7b\"type\":\"auth\",\"key\":" ++ jsonQuote k ++ "\x7d"

/-- The single auth frame written by `authenticateRemote`
(src/unnamed/part_000 line 130): the JSON object followed by one LF. -/
def authPayload (k : String) : String :=
  authBody k ++ "\n"

/-- Observable I/O of `authenticateRemote` before any server response:
the frames written to the socket, whether the function attached `data`,
`error` and `close` listeners (i.e. reads bytes at all), and whether it
resolved immediately. -/
structure AuthTrace where
  frames : List String
  listens : Bool
  immediateSuccess : Bool
deriving DecidableEq, Repr

/-- Model of `authenticateRemote` (src/unnamed/part_000 lines 82-141) up to
the point where it waits for a server indicator.  `if (!secretKey) return;`
makes both the absent key and the empty-string key (both falsy in
JavaScript) resolve at once with no I/O; any other key attaches the
listeners and writes exactly one frame. -/
def authenticateRemote (secretKey : Option String) : AuthTrace :=
  match secretKey with
  | none => { frames := [], listens := false, immediateSuccess := true }
  | some k =>
    if k = "" then { frames := [], listens := false, immediateSuccess := true }
    else { frames := [authPayload k], listens := true, immediateSuccess := false }

/-- Log lines produced by `authenticateRemote` before any server response.
For a truthy key the source executes
`logger.debug('Sending authentication payload to remote: %s', payload.trim())`
(src/unnamed/part_000 line 131), and `payload.trim()` is the frame without
its trailing LF, i.e. `authBody k`. -/
def authLogs (secretKey : Option String) : List String :=
  match secretKey with
  | none => []
  | some k =>
    if k = "" then []
    else ["Sending authentication payload to remote: " ++ authBody k]

/-- Endpoint record built by `getTunnelEndpoint` and logged by `tnnlr`. -/
structure TunnelEndpoint where
  id : String
  url : String
  host : Option String
  port : Nat
  secret_key : String
deriving DecidableEq, Repr

/-- `JSON.stringify(tunnelEndpoint)` for the record
`{ id, url, host, port, secret_key }` returned by `getTunnelEndpoint`
(field insertion order preserved; an `undefined` host is omitted). -/
def endpointJson (e : TunnelEndpoint) : String :=
  "\x7b\"id\":" ++ jsonQuote e.id ++ ",\"url\":" ++ jsonQuote e.url ++
    (match e.host with
     | none => ""
     | some h => ",\"host\":" ++ jsonQuote h) ++
    ",\"port\":" ++ toString e.port ++
    ",\"secret_key\":" ++ jsonQuote e.secret_key ++ "\x7d"

/-- The debug line `tnnlr` logs right after endpoint acquisition
(src/src/lib/utils.ts line 88):
`logger.debug(`Obtained tunnel endpoint: ...`)` with the full JSON of the
endpoint, `secret_key` included. -/
def tnnlrEndpointLog (e : TunnelEndpoint) : String :=
  "Obtained tunnel endpoint: " ++ endpointJson e

/-- JavaScript `\S` (non-whitespace), ASCII subset, used by the Host-header
regex `/(\r\n[Hh]ost: )\S+/`. -/
def isNonWs (c : Char) : Bool :=
  !(c = ' ' || c = '\t' || c = '\n' || c = '\r' ||
    c.toNat = 11 || c.toNat = 12)

/-- Try to match `(\r\n[Hh]ost: )\S+` at the head of the character list.
On success return the matched case character (`H` or `h`) and the
characters after the greedy `\S+` run. -/
def matchHostAt (l : List Char) : Option (Char × List Char) :=
  match l with
  | '\r' :: '\n' :: h :: 'o' :: 's' :: 't' :: ':' :: ' ' :: rest =>
    if h = 'H' || h = 'h' then
      if (rest.takeWhile isNonWs) = [] then none
      else some (h, rest.dropWhile isNonWs)
    else none
  | _ => none

/-- Leftmost, single application of
`str.replace(/(\r\n[Hh]ost: )\S+/, (m, g1) => g1 + host)`:
`none` when the regex does not match. -/
def replaceFirstHost (host : String) : List Char → Option (List Char)
  | [] => none
  | c :: cs =>
    match matchHostAt (c :: cs) with
    | some (h, after) =>
      some ( '\r' :: '\n' :: h :: ( 'o' :: 's' :: 't' :: ':' :: ' ' :: [])
        ++ host.toList ++ after)
    | none =>
      match replaceFirstHost host cs with
      | some out => some (c :: out)
      | none => none

/-- One `transform` call of `createHeaderHostTransformer`
(src/unnamed/part_000 lines 366-384): passthrough once the `replaced` latch
is set; otherwise apply the single regex substitution and set the latch
only if it fired. -/
def hostStep (host : String) (replaced : Bool) (chunk : String) :
    String × Bool :=
  if replaced then (chunk, true)
  else
    match replaceFirstHost host chunk.toList with
    | some out => (String.mk out, true)
    | none => (chunk, false)

/-- Run the Host transformer over a whole session's chunk sequence. -/
def hostRun (host : String) (replaced : Bool) :
    List String → List String
  | [] => []
  | c :: cs =>
    match hostStep host replaced c with
    | (o, r) => o :: hostRun host r cs

/-- Number of positions where two chunk sequences differ. -/
def countDiff : List String → List String → Nat
  | a :: as, b :: bs => (if a = b then 0 else 1) + countDiff as bs
  | _, _ => 0

/-- The guard under which `createTunnel` inserts the Host transformer into
the remote-to-local pipeline (src/unnamed/part_000 lines 278-281):
`localHost !== 'localhost' && localHost !== '127.0.0.1'`. -/
def usesHostTransformer (localHost : String) : Bool :=
  localHost != "localhost" && localHost != "127.0.0.1"

/-- `retryAsync` (src/src/lib/utils.ts lines 33-48), with the attempts of
`fn` modelled as a function from the attempt index to a result.  Returns
the final result together with the number of invocations of `fn` and the
number of `sleep(delayMs)` calls executed between them.  `left` is the
number of retries still allowed after the current attempt; on a failure
with no retries left the loop throws the error of that final attempt. -/
def retryGo (fn : Nat → Except String Nat) : Nat → Nat →
    Except String Nat × Nat × Nat
  | i, 0 => (fn i, 1, 0)
  | i, left + 1 =>
    match fn i with
    | .ok a => (.ok a, 1, 0)
    | .error _ =>
      match retryGo fn (i + 1) left with
      | (r, c, s) => (r, c + 1, s + 1)

/-- `retryAsync(fn, retries, delayMs)`: first attempt at index 0, at most
`retries` further attempts. -/
def retryAsync (fn : Nat → Except String Nat) (retries : Nat) :
    Except String Nat × Nat × Nat :=
  retryGo fn 0 retries

/-- True iff an attempt result is a success. -/
def exceptOk : Except String Nat → Bool
  | .ok _ => true
  | .error _ => false

/-- State of the promise returned by `createTunnel`: a JavaScript promise
settles at most once; later `resolve`/`reject` calls are no-ops. -/
inductive PromiseState where
  | pending
  | resolvedP
  | rejectedP (msg : String)
deriving DecidableEq, Repr

/-- `resolve()` on the promise. -/
def settleResolve : PromiseState → PromiseState
  | .pending => .resolvedP
  | p => p

/-- `reject(msg)` on the promise. -/
def settleReject (m : String) : PromiseState → PromiseState
  | .pending => .rejectedP m
  | p => p

/-- Events observed on the remote socket after the connection is up. -/
inductive RemoteEv where
  | data (chunk : List Nat)
  | errEv (code : Option String) (msg : String)
  | closeEv
deriving DecidableEq, Repr

/-- Session state for the promise-settlement model of `createTunnel`
(src/unnamed/part_000 lines 326-363) for a session with no `secretKey`, so
that `waitForReady` is listening as soon as the connection is up.
`waiting` is true while `waitForReady`'s listeners are attached, `buf` is
its internal buffer, and `emitted` records the errors emitted on the
session's internal emitter. -/
structure TState where
  promise : PromiseState
  waiting : Bool
  buf : List Nat
  emitted : List String
deriving DecidableEq, Repr

/-- Process one remote-socket event, honouring Node's listener invocation
order (registration order): the promise executor's `error` and `close`
listeners are registered when `createTunnel` returns its promise, before
the connect callback attaches `waitForReady`'s listeners, so on `close`
the executor's `resolve()` runs before `waitForReady`'s rejection reaches
the emitter, and a settled promise ignores the later `reject`. -/
def tstep (st : TState) (e : RemoteEv) : TState :=
  match e with
  | .closeEv =>
    let p1 := settleResolve st.promise
    if st.waiting then
      { st with
          promise := settleReject "Socket closed before READY" p1,
          emitted := st.emitted ++ ["Socket closed before READY"],
          waiting := false }
    else { st with promise := p1 }
  | .errEv code msg =>
    let p1 :=
      match code with
      | none => st.promise
      | some c =>
        if c = "ECONNREFUSED" then
          settleReject "Connection refused by the server" st.promise
        else settleReject msg st.promise
    if st.waiting then
      { st with
          promise := settleReject msg p1,
          emitted := st.emitted ++ [msg],
          waiting := false }
    else { st with promise := p1 }
  | .data chunk =>
    if st.waiting then
      match waitLoop (st.buf ++ chunk) 0 with
      | .more b _ => { st with buf := b }
      | .ready _ _ => { st with waiting := false, buf := [] }
      | .protoFail _ =>
        { st with
            waiting := false,
            promise := settleReject "Unexpected data before READY" st.promise,
            emitted := st.emitted ++ ["Unexpected data before READY"] }
    else st

/-- Initial state: connection up, no secret key, `waitForReady` attached. -/
def tInit : TState :=
  { promise := .pending, waiting := true, buf := [], emitted := [] }

/-- Final state of the session model after a list of remote events. -/
def tunnelFinal (events : List RemoteEv) : TState :=
  events.foldl tstep tInit

/-- Settlement of the promise returned by `createTunnel` after a list of
remote events. -/
def createTunnelOutcome (events : List RemoteEv) : PromiseState :=
  (tunnelFinal events).promise

/-- `n` consecutive `PING\n` control lines. -/
def pingBlock : Nat → List Nat
  | 0 => []
  | n + 1 => pingBytes ++ 10 :: pingBlock n

/-- Number of LF characters in a string. -/
def lfCount (s : String) : Nat :=
  (s.data.filter (fun c => c == '\n')).length

theorem splitAtLF_noLF {buf : List Nat} (h : ∀ b ∈ buf, b ≠ 10) :
    splitAtLF buf = none := by
  induction buf with
  | nil => rfl
  | cons a as ih =>
    have ha : a ≠ 10 := h a (by simp)
    have h' : ∀ b ∈ as, b ≠ 10 := fun b hb => h b (by simp [hb])
    simp [splitAtLF, ha, ih h']

theorem splitAtLF_append (pre r : List Nat)
    (h : ∀ b ∈ pre, b ≠ 10) :
    splitAtLF (pre ++ 10 :: r) = some (pre, r) := by
  induction pre with
  | nil => simp [splitAtLF]
  | cons a as ih =>
    have ha : a ≠ 10 := h a (by simp)
    have h' : ∀ b ∈ as, b ≠ 10 := fun b hb => h b (by simp [hb])
    simp [splitAtLF, ha, ih h']

theorem splitAtLF_rest_length :
    ∀ {buf p r : List Nat}, splitAtLF buf = some (p, r) →
      r.length < buf.length := by
  intro buf
  induction buf with
  | nil => intro p r h; simp [splitAtLF] at h
  | cons a as ih =>
    intro p r h
    by_cases ha : a = 10
    · simp [splitAtLF, ha] at h
      obtain ⟨hp, hr⟩ := h
      subst hr
      simp
    · cases hs : splitAtLF as with
      | none => simp [splitAtLF, ha, hs] at h
      | some pr =>
        obtain ⟨p0, r0⟩ := pr
        simp [splitAtLF, ha, hs] at h
        obtain ⟨hp, hr⟩ := h
        subst hr
        have := ih hs
        simp
        omega

/-- One-step unfolding of `waitLoopAux` at positive fuel. -/
theorem waitLoopAux_succ (fuel : Nat) (buf : List Nat) (p : Nat) :
    waitLoopAux (fuel + 1) buf p =
      match splitAtLF buf with
      | none => .more buf p
      | some (pre, rest) =>
        if trimBytes pre = readyBytes then .ready rest p
        else if trimBytes pre = pingBytes then waitLoopAux fuel rest (p + 1)
        else if buf.length > 64 * 1024 then .protoFail p
        else .more buf p := rfl

/-- `waitLoopAux` does not depend on the fuel as long as the fuel dominates
the buffer length. -/
theorem waitLoopAux_fuel :
    ∀ f1 f2 buf p, buf.length ≤ f1 → buf.length ≤ f2 →
      waitLoopAux f1 buf p = waitLoopAux f2 buf p := by
  intro f1
  induction f1 with
  | zero =>
    intro f2 buf p h1 h2
    have hb : buf = [] := List.length_eq_zero.mp (Nat.le_zero.mp h1)
    subst hb
    cases f2 with
    | zero => rfl
    | succ b => simp [waitLoopAux, splitAtLF]
  | succ a ih =>
    intro f2 buf p h1 h2
    cases f2 with
    | zero =>
      have hb : buf = [] := List.length_eq_zero.mp (Nat.le_zero.mp h2)
      subst hb
      simp [waitLoopAux, splitAtLF]
    | succ b =>
      cases hs : splitAtLF buf with
      | none => simp [waitLoopAux, hs]
      | some pr =>
        obtain ⟨pre, rest⟩ := pr
        have hlen := splitAtLF_rest_length hs
        simp only [waitLoopAux, hs]
        by_cases hr : trimBytes pre = readyBytes
        · simp [hr]
        · by_cases hp : trimBytes pre = pingBytes
          · simp [hr, hp]
            exact ih b rest (p + 1) (by omega) (by omega)
          · simp [hr, hp]

/-- Unfolding lemma: on a buffer with no LF, the handler just keeps the
buffer (the 64 KiB cap check is never reached). -/
theorem waitLoop_noLF (buf : List Nat) (p : Nat) (h : ∀ b ∈ buf, b ≠ 10) :
    waitLoop buf p = .more buf p := by
  cases buf with
  | nil => rfl
  | cons a as =>
    have hl : (a :: as).length = as.length + 1 := rfl
    rw [waitLoop, hl, waitLoopAux_succ, splitAtLF_noLF h]

/-- Unfolding lemma: a buffer whose first line is `READY` resolves with the
bytes after the LF. -/
theorem waitLoop_ready (t : List Nat) (p : Nat) :
    waitLoop (readyBytes ++ 10 :: t) p = .ready t p := by
  have hlen : (readyBytes ++ 10 :: t).length = (t.length + 5) + 1 := by
    simp [readyBytes]
  rw [waitLoop, hlen, waitLoopAux_succ,
    splitAtLF_append readyBytes t (by decide)]
  rfl

/-- Unfolding lemma: a buffer whose first line is `PING` writes one `PONG`
and continues on the remainder. -/
theorem waitLoop_ping (t : List Nat) (p : Nat) :
    waitLoop (pingBytes ++ 10 :: t) p = waitLoop t (p + 1) := by
  have hlen : (pingBytes ++ 10 :: t).length = (t.length + 4) + 1 := by
    simp [pingBytes]
  rw [waitLoop, hlen, waitLoopAux_succ,
    splitAtLF_append pingBytes t (by decide)]
  show waitLoopAux (t.length + 4) t (p + 1) = waitLoop t (p + 1)
  rw [waitLoop]
  exact waitLoopAux_fuel (t.length + 4) t.length t (p + 1) (by omega)
    (by omega)

/-- Unfolding lemma: a complete first line that is neither `READY` nor
`PING` is left in place; only the 64 KiB cap check runs. -/
theorem waitLoop_stuck (pre t : List Nat) (p : Nat)
    (h1 : ∀ b ∈ pre, b ≠ 10)
    (h2 : trimBytes pre ≠ readyBytes)
    (h3 : trimBytes pre ≠ pingBytes) :
    waitLoop (pre ++ 10 :: t) p =
      if (pre ++ 10 :: t).length > 64 * 1024 then .protoFail p
      else .more (pre ++ 10 :: t) p := by
  have hlen : (pre ++ 10 :: t).length = (pre.length + t.length) + 1 := by
    simp
    omega
  rw [waitLoop, hlen, waitLoopAux_succ, splitAtLF_append pre t h1]
  show (if trimBytes pre = readyBytes then WaitStep.ready t p
    else if trimBytes pre = pingBytes then
      waitLoopAux (pre.length + t.length) t (p + 1)
    else if (pre ++ 10 :: t).length > 64 * 1024 then WaitStep.protoFail p
    else WaitStep.more (pre ++ 10 :: t) p) =
    if (pre.length + t.length) + 1 > 64 * 1024 then WaitStep.protoFail p
    else WaitStep.more (pre ++ 10 :: t) p
  rw [if_neg h2, if_neg h3, hlen]

/-- Once the head of the buffer is a complete line that is neither `READY`
nor `PING`, no amount of further data can make the waiter resolve: the line
is never consumed, so every later pass re-examines it and either keeps
waiting or fails on the 64 KiB cap. -/
theorem waitRun_stuck (pre : List Nat)
    (h1 : ∀ b ∈ pre, b ≠ 10)
    (h2 : trimBytes pre ≠ readyBytes)
    (h3 : trimBytes pre ≠ pingBytes) :
    ∀ cs t p, isReadyOutcome (waitRun (pre ++ 10 :: t) p cs) = false := by
  intro cs
  induction cs with
  | nil => intro t p; rfl
  | cons c cs ih =>
    intro t p
    have hb : (pre ++ 10 :: t) ++ c = pre ++ 10 :: (t ++ c) := by simp
    have hs := waitLoop_stuck pre (t ++ c) p h1 h2 h3
    by_cases hcap : (pre ++ 10 :: (t ++ c)).length > 64 * 1024
    · rw [if_pos hcap] at hs
      simp only [waitRun, hb, hs]
      rfl
    · rw [if_neg hcap] at hs
      simp only [waitRun, hb, hs]
      exact ih (t ++ c) p

/-- C9: if a complete LF-terminated line that is neither `READY` nor `PING`
arrives before any `READY` line, the ready waiter never resolves
successfully, no matter what arrives afterwards (the unrecognized line is
never removed from the head of the buffer, so a later `READY` line is never
recognized); the wait can only stay pending or end in the buffer-cap
protocol error (or, externally, a socket error or close). -/
theorem stuck_line_never_ready (pre t : List Nat) (cs : List (List Nat))
    (h1 : ∀ b ∈ pre, b ≠ 10)
    (h2 : trimBytes pre ≠ readyBytes)
    (h3 : trimBytes pre ≠ pingBytes) :
    isReadyOutcome (waitRun [] 0 ((pre ++ 10 :: t) :: cs)) = false := by
  have hs := waitLoop_stuck pre t 0 h1 h2 h3
  by_cases hcap : (pre ++ 10 :: t).length > 64 * 1024
  · rw [if_pos hcap] at hs
    simp only [waitRun, List.nil_append, hs]
    rfl
  · rw [if_neg hcap] at hs
    simp only [waitRun, List.nil_append, hs]
    exact waitRun_stuck pre h1 h2 h3 cs t 0

/-- Witness for C9: after the unrecognized line `X\n`, even a subsequent
`READY\n` chunk is not recognized. -/
theorem stuck_line_never_ready_witness :
    isReadyOutcome
      (waitRun [] 0 ([88, 10] :: [[82, 69, 65, 68, 89, 10]])) = false :=
  stuck_line_never_ready [88] [] [[82, 69, 65, 68, 89, 10]]
    (by decide) (by decide) (by decide)

/-- A buffer of `n` `PING` lines followed by a `READY` line resolves with
the bytes after `READY` and answers each `PING` exactly once. -/
theorem waitLoop_pingBlock (n : Nat) :
    ∀ rest p, waitLoop (pingBlock n ++ (readyBytes ++ 10 :: rest)) p =
      .ready rest (p + n) := by
  induction n with
  | zero =>
    intro rest p
    simpa [pingBlock] using waitLoop_ready rest p
  | succ n ih =>
    intro rest p
    have hb : pingBlock (n + 1) ++ (readyBytes ++ 10 :: rest) =
        pingBytes ++ 10 :: (pingBlock n ++ (readyBytes ++ 10 :: rest)) := by
      simp [pingBlock]
    rw [hb, waitLoop_ping, ih]
    congr 1
    omega

/-- C5: for every `PING` line received before `READY`, the ready waiter
writes exactly one `PONG\n` back (n `PING` lines yield exactly n `PONG`
writes), and the `PING` lines never appear in the payload forwarded to the
local socket: the waiter resolves with exactly the bytes after the `READY`
line terminator, the `PING` lines having been removed from the buffer. -/
theorem waitForReady_ping_pong_discipline (n : Nat) (rest : List Nat) :
    waitLoop (pingBlock n ++ (readyBytes ++ 10 :: rest)) 0 =
      .ready rest n := by
  simpa using waitLoop_pingBlock n rest 0

/-- Stepping lemma for `waitRun` when the chunk leaves the waiter pending. -/
theorem waitRun_cons_more {buf c b : List Nat} {p q : Nat}
    (h : waitLoop (buf ++ c) p = .more b q) (cs : List (List Nat)) :
    waitRun buf p (c :: cs) = waitRun b q cs := by
  simp only [waitRun, h]

/-- Stepping lemma for `waitRun` when the chunk triggers the protocol
error. -/
theorem waitRun_cons_protoFail {buf c : List Nat} {p q : Nat}
    (h : waitLoop (buf ++ c) p = .protoFail q) (cs : List (List Nat)) :
    waitRun buf p (c :: cs) = .protoFail q := by
  simp only [waitRun, h]

/-- C2 (code bug): the 64 KiB cap is only checked after a complete
non-control line has been found, so a pre-READY stream with no LF byte at
all is buffered without limit and never produces the protocol error: after
a single 65537-byte chunk of `A` bytes the waiter is still pending with the
full buffer.  By contrast, when an LF is present (line `X` followed by
65535 filler bytes, 65537 bytes in total) the cap does fire. -/
theorem waitForReady_cap_not_enforced_without_newline :
    waitRun [] 0 [List.replicate 65537 65] =
      .waiting (List.replicate 65537 65) 0 ∧
    waitRun [] 0 [ [88] ++ 10 :: List.replicate 65535 65] = .protoFail 0 := by
  constructor
  · have h10 : ∀ b ∈ List.replicate 65537 (65 : Nat), b ≠ 10 := by
      intro b hb
      have := List.eq_of_mem_replicate hb
      omega
    have hw : waitLoop ([] ++ List.replicate 65537 65) 0 =
        .more (List.replicate 65537 65) 0 := by
      rw [List.nil_append]
      exact waitLoop_noLF _ 0 h10
    rw [waitRun_cons_more hw]
    rfl
  · have hgen : ∀ (l : List Nat), ( [88] ++ 10 :: l).length =
        l.length + 2 := by
      intro l
      simp
    have hlen : ( [88] ++ 10 :: List.replicate 65535 (65 : Nat)).length >
        64 * 1024 := by
      rw [hgen, List.length_replicate]
      norm_num
    have hs := waitLoop_stuck [88] (List.replicate 65535 65) 0
      (by decide) (by decide) (by decide)
    rw [if_pos hlen] at hs
    have hw : waitLoop ([] ++ ( [88] ++ 10 :: List.replicate 65535 65)) 0 =
        .protoFail 0 := by
      rw [List.nil_append]
      exact hs
    rw [waitRun_cons_protoFail hw]

/-- C1 (code bug): `createTunnel` never delivers the post-READY residue to
the local socket.  With the remote sending the chunk `READY\nDATA` and then
the chunk `MORE`, the ready waiter resolves with residue `DATA`
(bytes 68,65,84,65), but the bytes delivered to the local socket are only
`MORE` (bytes 77,79,82,69): `postReadyBuffer` is assigned and then dropped,
so the delivered bytes are not `residue ++ laterBytes`. -/
theorem createTunnel_drops_postReady_residue :
    waitRun [] 0 [ [82, 69, 65, 68, 89, 10, 68, 65, 84, 65],
      [77, 79, 82, 69] ] =
      .ready [68, 65, 84, 65] 0 [ [77, 79, 82, 69] ] ∧
    createTunnelLocalBytes [ [82, 69, 65, 68, 89, 10, 68, 65, 84, 65],
      [77, 79, 82, 69] ] = some [77, 79, 82, 69] := by
  constructor
  · decide
  · decide

/-- Once the `replaced` latch is set the transformer is a pure
passthrough. -/
theorem hostRun_latched (host : String) :
    ∀ cs : List String, hostRun host true cs = cs := by
  intro cs
  induction cs with
  | nil => rfl
  | cons c cs ih => simp [hostRun, hostStep, ih]

/-- `countDiff` of a sequence with itself is zero. -/
theorem countDiff_self : ∀ cs : List String, countDiff cs cs = 0 := by
  intro cs
  induction cs with
  | nil => rfl
  | cons c cs ih => simp [countDiff, ih]

/-- C6: per session, the Host-header transformer rewrites at most one
`Host:` header value: starting with the latch clear, at most one chunk of
the output differs from its input, once the latch is set every chunk
passes through unchanged, and `createTunnel` inserts the transformer into
the remote-to-local pipeline exactly when the configured `localHost` is
neither `localhost` nor `127.0.0.1`. -/
theorem host_transformer_at_most_one_rewrite (host lh : String)
    (cs : List String) :
    countDiff cs (hostRun host false cs) ≤ 1 ∧
    hostRun host true cs = cs ∧
    (usesHostTransformer lh = true ↔
      (lh ≠ "localhost" ∧ lh ≠ "127.0.0.1")) := by
  refine ⟨?_, hostRun_latched host cs, ?_⟩
  · induction cs with
    | nil => simp [hostRun, countDiff]
    | cons c cs ih =>
      cases hr : replaceFirstHost host c.toList with
      | none =>
        simp only [hostRun, hostStep, if_neg Bool.false_ne_true, hr]
        simpa [countDiff] using ih
      | some out =>
        simp only [hostRun, hostStep, if_neg Bool.false_ne_true, hr]
        simp [countDiff, hostRun_latched host cs, countDiff_self cs]
        split_ifs <;> omega
  · simp [usesHostTransformer]

/-- Witness for C6 at concrete inputs. -/
theorem host_transformer_witness :
    usesHostTransformer "internal.example" = true ∧
    hostRun "internal.example" true ["GET / HTTP/1.1"] =
      ["GET / HTTP/1.1"] :=
  ⟨(host_transformer_at_most_one_rewrite "internal.example"
      "internal.example" []).2.2.mpr ⟨by decide, by decide⟩,
    (host_transformer_at_most_one_rewrite "internal.example"
      "internal.example" ["GET / HTTP/1.1"]).2.1⟩

/-- Every hexadecimal digit character differs from LF. -/
theorem mem_hexDigits_ne_lf : ∀ c ∈ hexDigits, c ≠ '\n' := by decide

/-- A hex digit is never an LF. -/
theorem hexDigit_ne_lf (n : Nat) : hexDigit n ≠ '\n' := by
  unfold hexDigit
  cases hg : hexDigits[n]? with
  | none => decide
  | some c =>
    simp only [hg, Option.getD_some]
    exact mem_hexDigits_ne_lf c (List.getElem?_mem hg)

/-- The JSON escape of any character contains no raw LF (a literal LF is
escaped as the two characters `\` `n`). -/
theorem filter_lf_jsonEscapeChar (c : Char) :
    (jsonEscapeChar c).filter (fun x => x == '\n') = [] := by
  unfold jsonEscapeChar
  split_ifs with h1 h2 h3 h4 h5 h6 h7 h8
  · rfl
  · rfl
  · rfl
  · rfl
  · rfl
  · rfl
  · rfl
  · simp [List.filter_cons, List.filter_nil, hexDigit_ne_lf]
  · simp [List.filter_cons, List.filter_nil, beq_eq_false_iff_ne, h3]

/-- The escaped body of a JSON string contains no raw LF. -/
theorem filter_lf_flatten (l : List Char) :
    ((l.map jsonEscapeChar).flatten.filter (fun x => x == '\n')) = [] := by
  induction l with
  | nil => rfl
  | cons a as ih =>
    simp [List.filter_append, filter_lf_jsonEscapeChar a, ih]

/-- `JSON.stringify` of a string never contains a raw LF. -/
theorem lfCount_jsonQuote (s : String) : lfCount (jsonQuote s) = 0 := by
  show ((( '"' :: ((s.toList.map jsonEscapeChar).flatten ++ [ '"' ])).filter
    (fun c => c == '\n')).length) = 0
  rw [List.filter_cons]
  rw [if_neg (by decide)]
  rw [List.filter_append, filter_lf_flatten s.toList]
  decide

/-- `lfCount` distributes over string append. -/
theorem lfCount_append (s t : String) :
    lfCount (s ++ t) = lfCount s + lfCount t := by
  unfold lfCount
  rw [String.data_append, List.filter_append, List.length_append]

/-- The auth frame contains exactly one LF, the terminator: whatever the
secret key is, its JSON escape introduces no LF. -/
theorem lfCount_authPayload (k : String) : lfCount (authPayload k) = 1 := by
  unfold authPayload authBody
  rw [lfCount_append, lfCount_append, lfCount_append, lfCount_jsonQuote]
  decide

/-- C10: an empty-string `secretKey` is falsy in JavaScript, so
`authenticateRemote` treats it exactly like an absent key: it resolves
immediately, attaches no listeners (reads no bytes) and writes no auth
frame, so an empty-string key never causes any authentication exchange or
auth failure. -/
theorem auth_empty_key_no_io :
    authenticateRemote (some "") = authenticateRemote none ∧
    authenticateRemote (some "") =
      { frames := [], listens := false, immediateSuccess := true } := by
  constructor
  · rfl
  · rfl

/-- C7 counterexample: with `secretKey` present but equal to the empty
string — a value that is not absent — `authenticateRemote` writes no frame
at all (zero frames, not exactly one) and resolves immediately, against
the claim's `otherwise it writes exactly one frame`. -/
theorem auth_empty_key_writes_no_frame_cx :
    (authenticateRemote (some "")).frames.length = 0 ∧
    (authenticateRemote (some "")).immediateSuccess = true := by
  constructor
  · rfl
  · rfl

/-- C7 (amended): if `secretKey` is absent or the empty string,
`authenticateRemote` returns success immediately and performs no I/O;
otherwise (nonempty key) it writes exactly one frame, the UTF-8 JSON object
`{"type":"auth","key":<json-escaped secret>}` followed by a single LF
(the frame contains exactly one LF, its terminator). -/
theorem auth_frame_exactly_one_when_nonempty (k : String) (hk : k ≠ "") :
    (authenticateRemote (some k)).frames = [authBody k ++ "\n"] ∧
    (authenticateRemote (some k)).listens = true ∧
    lfCount (authBody k ++ "\n") = 1 ∧
    (authenticateRemote none).frames = [] ∧
    (authenticateRemote none).listens = false := by
  refine ⟨?_, ?_, lfCount_authPayload k, rfl, rfl⟩
  · simp [authenticateRemote, hk, authPayload]
  · simp [authenticateRemote, hk]

/-- Witness for C7 (amended) at the key `s`. -/
theorem auth_frame_witness :
    (authenticateRemote (some "s")).frames =
      ["\x7b\"type\":\"auth\",\"key\":\"s\"\x7d\n"] :=
  ((auth_frame_exactly_one_when_nonempty "s" (by decide)).1).trans (by rfl)

/-- C3 (code bug): the secret key appears verbatim in log output.  For a
truthy key, `authenticateRemote` logs the full auth payload (the line
commented `do not log the secret` is immediately followed by a
`logger.debug` of the payload), so the log output differs between two runs
that differ only in the key and contains the key itself; `tnnlr`
additionally logs the whole endpoint record including `secret_key`. -/
theorem auth_payload_log_contains_secret :
    authLogs (some "alpha") =
      ["Sending authentication payload to remote: \x7b\"type\":\"auth\",\"key\":\"alpha\"\x7d"] ∧
    authLogs (some "beta") =
      ["Sending authentication payload to remote: \x7b\"type\":\"auth\",\"key\":\"beta\"\x7d"] ∧
    tnnlrEndpointLog
      { id := "i", url := "u", host := none, port := 80,
        secret_key := "topsecret" } =
      "Obtained tunnel endpoint: \x7b\"id\":\"i\",\"url\":\"u\",\"port\":80,\"secret_key\":\"topsecret\"\x7d" := by
  refine ⟨?_, ?_, ?_⟩
  · rfl
  · rfl
  · rfl

/-- `retryGo` makes at most `left + 1` invocations, and sleeps exactly once
after every invocation except the last. -/
theorem retryGo_calls (fn : Nat → Except String Nat) :
    ∀ left i, 1 ≤ (retryGo fn i left).2.1 ∧
      (retryGo fn i left).2.1 ≤ left + 1 ∧
      (retryGo fn i left).2.2 = (retryGo fn i left).2.1 - 1 := by
  intro left
  induction left with
  | zero =>
    intro i
    simp [retryGo]
  | succ n ih =>
    intro i
    cases hf : fn i with
    | ok a => simp [retryGo, hf]
    | error e =>
      rcases hr : retryGo fn (i + 1) n with ⟨r, c, sl⟩
      have h2 := ih (i + 1)
      rw [hr] at h2
      simp only [retryGo, hf, hr]
      simp at h2 ⊢
      omega

/-- `retryGo` returns the first success, after exactly `k + 1` calls when
the first `k` attempts fail and attempt `k` succeeds. -/
theorem retryGo_first_success (fn : Nat → Except String Nat) :
    ∀ k left i, k ≤ left →
      (∀ j, j < k → exceptOk (fn (i + j)) = false) →
      exceptOk (fn (i + k)) = true →
      retryGo fn i left = (fn (i + k), k + 1, k) := by
  intro k
  induction k with
  | zero =>
    intro left i hk hfail hok
    rw [Nat.add_zero] at hok
    cases hf : fn i with
    | error e => rw [hf] at hok; simp [exceptOk] at hok
    | ok a =>
      cases left with
      | zero => simp [retryGo, hf]
      | succ n => simp [retryGo, hf]
  | succ k ih =>
    intro left i hk hfail hok
    obtain ⟨n, rfl⟩ : ∃ n, left = n + 1 := ⟨left - 1, by omega⟩
    have h0 : exceptOk (fn i) = false := by
      have := hfail 0 (by omega)
      simpa using this
    cases hf : fn i with
    | ok a => rw [hf] at h0; simp [exceptOk] at h0
    | error e =>
      have hidx : i + 1 + k = i + (k + 1) := by omega
      have hrec := ih n (i + 1) (by omega)
        (fun j hj => by
          have := hfail (j + 1) (by omega)
          have hj2 : i + 1 + j = i + (j + 1) := by omega
          rw [hj2]
          exact this)
        (by rw [hidx]; exact hok)
      simp only [retryGo, hf, hrec, hidx]

/-- When every allowed attempt fails, `retryGo` returns the error of the
final attempt after exactly `left + 1` calls. -/
theorem retryGo_all_fail (fn : Nat → Except String Nat) :
    ∀ left i, (∀ j, j ≤ left → exceptOk (fn (i + j)) = false) →
      retryGo fn i left = (fn (i + left), left + 1, left) := by
  intro left
  induction left with
  | zero =>
    intro i h
    simp [retryGo]
  | succ n ih =>
    intro i h
    have h0 : exceptOk (fn i) = false := by
      have := h 0 (by omega)
      simpa using this
    cases hf : fn i with
    | ok a => rw [hf] at h0; simp [exceptOk] at h0
    | error e =>
      have hidx : i + 1 + n = i + (n + 1) := by omega
      have hrec := ih (i + 1) (fun j hj => by
        have := h (j + 1) (by omega)
        have hj2 : i + 1 + j = i + (j + 1) := by omega
        rw [hj2]
        exact this)
      simp only [retryGo, hf, hrec, hidx]

/-- C8: `retryAsync(fn, r, d)` invokes `fn` at most `r + 1` times (one
initial attempt plus up to `r` retries, with one `sleep(d)` between
consecutive attempts, i.e. one fewer sleeps than calls), returns the result
of the first successful invocation, and throws the error of the final
attempt when all `r + 1` invocations fail. -/
theorem retryAsync_bounded_first_success_last_error
    (fn : Nat → Except String Nat) (retries : Nat) :
    ((retryAsync fn retries).2.1 ≤ retries + 1 ∧
      (retryAsync fn retries).2.2 = (retryAsync fn retries).2.1 - 1) ∧
    (∀ k, k ≤ retries → (∀ j, j < k → exceptOk (fn j) = false) →
      exceptOk (fn k) = true →
      retryAsync fn retries = (fn k, k + 1, k)) ∧
    ((∀ j, j ≤ retries → exceptOk (fn j) = false) →
      retryAsync fn retries = (fn retries, retries + 1, retries)) := by
  refine ⟨⟨(retryGo_calls fn retries 0).2.1,
    (retryGo_calls fn retries 0).2.2⟩, ?_, ?_⟩
  · intro k hk hfail hok
    have h := retryGo_first_success fn k retries 0 hk
      (fun j hj => by simpa using hfail j hj) (by simpa using hok)
    simpa [retryAsync] using h
  · intro hall
    have h := retryGo_all_fail fn retries 0
      (fun j hj => by simpa using hall j hj)
    simpa [retryAsync] using h

/-- Witness for C8: a function failing on attempt 0 and succeeding on
attempt 1 is invoked twice with one sleep, returning the success. -/
theorem retryAsync_witness :
    retryAsync (fun k => if k = 0 then Except.error "boom" else Except.ok 7)
      3 = (Except.ok 7, 2, 1) := by
  have h := (retryAsync_bounded_first_success_last_error
    (fun k => if k = 0 then Except.error "boom" else Except.ok 7) 3).2.1 1
    (by omega)
    (by
      intro j hj
      have : j = 0 := by omega
      subst this
      rfl)
    (by rfl)
  exact h

/-- C4 counterexample: when the remote socket closes before any `READY`
line (here: immediately after connecting), the promise returned by
`createTunnel` resolves — it does not reject — because the executor's own
`close` listener (`remoteSocket.on('close', () => resolve())`) was
registered before `waitForReady`'s close handler and a promise ignores any
settlement after the first. -/
theorem createTunnel_resolves_on_close_before_ready_cx :
    createTunnelOutcome [RemoteEv.closeEv] = PromiseState.resolvedP := rfl

/-- C4 (amended): if the remote socket closes while the session is still
waiting for `READY` and the promise is still pending, `waitForReady` does
fail with the premature-close error `Socket closed before READY` and that
error is emitted on the session's emitter, but the `createTunnel` promise
resolves normally instead of rejecting: the resolve-on-close listener runs
first and wins. -/
theorem close_before_ready_resolves_not_rejects (pre : List RemoteEv)
    (hw : (tunnelFinal pre).waiting = true)
    (hp : (tunnelFinal pre).promise = .pending) :
    createTunnelOutcome (pre ++ [RemoteEv.closeEv]) =
      PromiseState.resolvedP ∧
    "Socket closed before READY" ∈
      (tunnelFinal (pre ++ [RemoteEv.closeEv])).emitted := by
  have hfold : tunnelFinal (pre ++ [RemoteEv.closeEv]) =
      tstep (tunnelFinal pre) RemoteEv.closeEv := by
    simp [tunnelFinal, List.foldl_append]
  constructor
  · show (tunnelFinal (pre ++ [RemoteEv.closeEv])).promise =
      PromiseState.resolvedP
    rw [hfold]
    simp [tstep, hw, hp, settleResolve, settleReject]
  · rw [hfold]
    simp [tstep, hw]

/-- Witness for C4 (amended): the socket closes immediately after the
connection is established. -/
theorem close_before_ready_witness :
    createTunnelOutcome ([] ++ [RemoteEv.closeEv]) =
      PromiseState.resolvedP ∧
    "Socket closed before READY" ∈
      (tunnelFinal ([] ++ [RemoteEv.closeEv])).emitted :=
  close_before_ready_resolves_not_rejects [] rfl rfl
